import Mathlib

/-!
Verification of the `fshelpers` library (`src/lib.rs`).

The library is a thin idempotency layer over the host filesystem: each
public operation performs one underlying OS call and then filters the
resulting `io::Result` through the `iopermit!` macro, which turns a
selected set of `io::ErrorKind` classifications into success and lets
every other error through unchanged.

We shallowly embed:
  * the filesystem state as an association list from absolute paths
    (lists of components) to nodes (regular file with abstract content,
    directory, or symbolic link storing a target path); the root `[]`
    is an implicit directory and never stored;
  * the OS primitives used by the library (`create_dir`,
    `File::create_new`, `create_dir_all`, `remove_dir`,
    `remove_dir_all`, `remove_file`, `read_link`, and the `Path`
    predicates `is_dir` / `is_file` / `is_symlink` / `exists`),
    modelling Linux semantics; symbolic links are resolved at the final
    path component with fuel bounding chain length (intermediate
    components are looked up literally, which suffices for the states
    the claims exercise);
  * the `iopermit!` macro as a fold of `permit` steps over the list of
    permitted error kinds;
  * the nine public operations `mkdir`, `mkf`, `mkf_p`, `mkdir_p`,
    `rmdir`, `rmdir_r`, `rmf`, `rm`, `is_dir`, keeping the source's
    names and structure.

Every mutating operation has type `Path → FS → FS × Except IOError Unit`:
the state component is the filesystem after the underlying OS call (the
call leaves the state untouched whenever it reports an error), and the
result component is the filtered `io::Result`.
-/

deriving instance DecidableEq for Except

namespace Fshelpers

/-- An absolute path, as its list of components. -/
abbrev Path := List String

/-- A filesystem node: regular file (with abstract content standing for
the byte contents), directory, or symbolic link storing a target path. -/
inductive Node where
  | file (content : Nat)
  | dir
  | symlink (target : Path)
deriving DecidableEq

/-- Filesystem state: an association list from paths to nodes.
The root `[]` is an implicit directory and is never stored. -/
abbrev FS := List (Path × Node)

/-- Raw entry lookup (the `lstat` view: never follows symlinks). -/
def lookupFS : FS → Path → Option Node
  | [], _ => none
  | (q, n) :: fs, p => if p = q then some n else lookupFS fs p

/-- Resolve the node at a path, following symbolic-link chains at the
final component, with fuel bounding the chain length (the `stat` view). -/
def statNode (fs : FS) : Nat → Path → Option Node
  | 0, _ => none
  | fuel + 1, p =>
    match lookupFS fs p with
    | some (Node.symlink t) => statNode fs fuel t
    | some n => some n
    | none => if p = [] then some Node.dir else none

/-- `stat` with enough fuel for any non-cyclic chain in `fs`. -/
def stat (fs : FS) (p : Path) : Option Node :=
  statNode fs (fs.length + 1) p

/-- Rust `Path::is_symlink`: the entry itself is a symlink (no following). -/
def isSymlinkRaw (fs : FS) (p : Path) : Bool :=
  match lookupFS fs p with
  | some (Node.symlink _) => true
  | _ => false

/-- Rust `Path::is_file`: resolves to a regular file. -/
def isFileStat (fs : FS) (p : Path) : Bool :=
  match stat fs p with
  | some (Node.file _) => true
  | _ => false

/-- Rust `Path::is_dir`: resolves to a directory. -/
def isDirStat (fs : FS) (p : Path) : Bool :=
  match stat fs p with
  | some Node.dir => true
  | _ => false

/-- Rust `Path::exists`: the path resolves to some node (follows symlinks,
so a broken symlink does not "exist"). -/
def pathExists (fs : FS) (p : Path) : Bool :=
  (stat fs p).isSome

/-- Rust `Path::parent`: `None` for the root, otherwise the path with the
final component dropped. -/
def parentPath (p : Path) : Option Path :=
  if p = [] then none else some p.dropLast

/-- `q` is a prefix of (an ancestor-or-self of) `p`. -/
def pathLe : Path → Path → Bool
  | [], _ => true
  | _ :: _, [] => false
  | a :: as, b :: bs => if a = b then pathLe as bs else false

/-- The directory at `p` has at least one entry below it. -/
def hasChild (fs : FS) (p : Path) : Bool :=
  fs.any (fun e => pathLe p e.1 && decide (e.1 ≠ p))

/-- Drop every entry stored exactly at key `p`. -/
def removeKey (fs : FS) (p : Path) : FS :=
  fs.filter (fun e => decide (e.1 ≠ p))

/-- The error classifications the embedding distinguishes, mirroring
`std::io::ErrorKind` (`other` stands for every remaining kind). -/
inductive IOErrorKind where
  | AlreadyExists
  | NotFound
  | DirectoryNotEmpty
  | NotADirectory
  | IsADirectory
  | InvalidInput
  | PermissionDenied
  | other
deriving DecidableEq

/-- An `std::io::Error`: a classification plus an opaque payload standing
for the message / OS error code, so that "propagated unchanged" is
observable beyond the kind. -/
structure IOError where
  kind : IOErrorKind
  payload : Nat
deriving DecidableEq

/-- Shorthand for a primitive-produced error. -/
def err (k : IOErrorKind) : Except IOError Unit :=
  Except.error ⟨k, 0⟩

/-- One `.permit(|e| e.kind() == $ioe)` step of the macro expansion:
an error satisfying the predicate becomes `Ok(())`, anything else is
returned unchanged. -/
def permit (r : Except IOError Unit) (pred : IOError → Bool) : Except IOError Unit :=
  match r with
  | Except.ok _ => Except.ok ()
  | Except.error e => if pred e then Except.ok () else Except.error e

/-- The `iopermit!` macro: chain one `permit` step per listed kind over
the initial result. -/
def iopermit (r : Except IOError Unit) (kinds : List IOErrorKind) : Except IOError Unit :=
  kinds.foldl (fun acc k => permit acc (fun e => decide (e.kind = k))) r

/-- OS `mkdir` (`std::fs::create_dir`): fails with `AlreadyExists` if any
entry (of any type) occupies the path, requires the parent to resolve to
a directory, creates a directory node. -/
def create_dir (p : Path) (fs : FS) : FS × Except IOError Unit :=
  match lookupFS fs p with
  | some _ => (fs, err IOErrorKind.AlreadyExists)
  | none =>
    if p = [] then (fs, err IOErrorKind.AlreadyExists)
    else
      match stat fs p.dropLast with
      | some Node.dir => ((p, Node.dir) :: fs, Except.ok ())
      | some _ => (fs, err IOErrorKind.NotADirectory)
      | none => (fs, err IOErrorKind.NotFound)

/-- OS exclusive file creation (`File::create_new`, i.e. `O_CREAT|O_EXCL`):
fails with `AlreadyExists` if any entry (of any type, symlinks included)
occupies the path, requires the parent to resolve to a directory, creates
an empty regular file. Never truncates. -/
def create_new (p : Path) (fs : FS) : FS × Except IOError Unit :=
  match lookupFS fs p with
  | some _ => (fs, err IOErrorKind.AlreadyExists)
  | none =>
    if p = [] then (fs, err IOErrorKind.AlreadyExists)
    else
      match stat fs p.dropLast with
      | some Node.dir => ((p, Node.file 0) :: fs, Except.ok ())
      | some _ => (fs, err IOErrorKind.NotADirectory)
      | none => (fs, err IOErrorKind.NotFound)

/-- The ancestor walk of `std::fs::create_dir_all` over the ascending
prefixes of `target`: an existing directory is skipped, a missing prefix
is created, an existing non-directory stops the walk — reported as
`AlreadyExists` on the full path (mirroring `create_dir` + failed
`is_dir` check) and as `NotADirectory` on an intermediate prefix. -/
def mkChain (target : Path) : List Path → FS → FS × Except IOError Unit
  | [], fs => (fs, Except.ok ())
  | q :: qs, fs =>
    if q = [] then mkChain target qs fs
    else
      match lookupFS fs q with
      | some Node.dir => mkChain target qs fs
      | some _ =>
        (fs, err (if q = target then IOErrorKind.AlreadyExists else IOErrorKind.NotADirectory))
      | none => mkChain target qs ((q, Node.dir) :: fs)

/-- OS `std::fs::create_dir_all`: create the path and all missing
ancestors. -/
def create_dir_all (p : Path) (fs : FS) : FS × Except IOError Unit :=
  mkChain p p.inits fs

/-- OS `rmdir` (`std::fs::remove_dir`): non-recursive removal of an empty
directory; `DirectoryNotEmpty` when it has entries, `NotADirectory` on a
non-directory. When no entry is stored at the path, resolution of the
parent decides the error as the OS does: a non-directory parent gives
`NotADirectory` (ENOTDIR), a missing or directory parent gives
`NotFound` (ENOENT). -/
def remove_dir (p : Path) (fs : FS) : FS × Except IOError Unit :=
  if p = [] then (fs, err IOErrorKind.other)
  else
    match lookupFS fs p with
    | none =>
      match stat fs p.dropLast with
      | some Node.dir => (fs, err IOErrorKind.NotFound)
      | some _ => (fs, err IOErrorKind.NotADirectory)
      | none => (fs, err IOErrorKind.NotFound)
    | some Node.dir =>
      if hasChild fs p then (fs, err IOErrorKind.DirectoryNotEmpty)
      else (removeKey fs p, Except.ok ())
    | some _ => (fs, err IOErrorKind.NotADirectory)

/-- OS `std::fs::remove_dir_all`: remove a directory and everything below
it; `NotADirectory` on a non-directory. When no entry is stored at the
path, a non-directory parent gives `NotADirectory` (ENOTDIR), a missing
or directory parent gives `NotFound` (ENOENT). -/
def remove_dir_all (p : Path) (fs : FS) : FS × Except IOError Unit :=
  if p = [] then (fs, err IOErrorKind.other)
  else
    match lookupFS fs p with
    | none =>
      match stat fs p.dropLast with
      | some Node.dir => (fs, err IOErrorKind.NotFound)
      | some _ => (fs, err IOErrorKind.NotADirectory)
      | none => (fs, err IOErrorKind.NotFound)
    | some Node.dir => (fs.filter (fun e => !pathLe p e.1), Except.ok ())
    | some _ => (fs, err IOErrorKind.NotADirectory)

/-- OS `unlink` (`std::fs::remove_file`): removes a regular file or a
symlink (the link itself, never its target); `IsADirectory` on a
directory. When no entry is stored at the path, a non-directory parent
gives `NotADirectory` (ENOTDIR), a missing or directory parent gives
`NotFound` (ENOENT). -/
def remove_file (p : Path) (fs : FS) : FS × Except IOError Unit :=
  if p = [] then (fs, err IOErrorKind.IsADirectory)
  else
    match lookupFS fs p with
    | none =>
      match stat fs p.dropLast with
      | some Node.dir => (fs, err IOErrorKind.NotFound)
      | some _ => (fs, err IOErrorKind.NotADirectory)
      | none => (fs, err IOErrorKind.NotFound)
    | some Node.dir => (fs, err IOErrorKind.IsADirectory)
    | some _ => (removeKey fs p, Except.ok ())

/-- OS `std::fs::read_link`: returns the stored target of a symlink —
note that it succeeds on a broken symlink, since it reads the link, not
the target; `InvalidInput` on a non-symlink, `NotFound` when absent. -/
def read_link (fs : FS) (p : Path) : Except IOError Path :=
  match lookupFS fs p with
  | some (Node.symlink t) => Except.ok t
  | some _ => Except.error ⟨IOErrorKind.InvalidInput, 0⟩
  | none => Except.error ⟨IOErrorKind.NotFound, 0⟩

/-- `pub fn mkdir`: `iopermit!(create_dir(dir), AlreadyExists)`. -/
def mkdir (p : Path) (fs : FS) : FS × Except IOError Unit :=
  ((create_dir p fs).1, iopermit (create_dir p fs).2 [IOErrorKind.AlreadyExists])

/-- `pub fn mkf`: `iopermit!(File::create_new(file).map(drop), AlreadyExists)`. -/
def mkf (p : Path) (fs : FS) : FS × Except IOError Unit :=
  ((create_new p fs).1, iopermit (create_new p fs).2 [IOErrorKind.AlreadyExists])

/-- `pub fn mkdir_p`: `iopermit!(create_dir_all(dir), AlreadyExists)`. -/
def mkdir_p (p : Path) (fs : FS) : FS × Except IOError Unit :=
  ((create_dir_all p fs).1, iopermit (create_dir_all p fs).2 [IOErrorKind.AlreadyExists])

/-- `pub fn mkf_p`: if the path has a parent and that parent does not
exist, first `mkdir_p(parent)?` (its error propagates), then
`iopermit!(File::create_new(file).map(drop), AlreadyExists)`. -/
def mkf_p (p : Path) (fs : FS) : FS × Except IOError Unit :=
  match parentPath p with
  | some par =>
    if pathExists fs par then
      ((create_new p fs).1, iopermit (create_new p fs).2 [IOErrorKind.AlreadyExists])
    else
      match mkdir_p par fs with
      | (fs1, Except.error e) => (fs1, Except.error e)
      | (fs1, Except.ok _) =>
        ((create_new p fs1).1, iopermit (create_new p fs1).2 [IOErrorKind.AlreadyExists])
  | none =>
    ((create_new p fs).1, iopermit (create_new p fs).2 [IOErrorKind.AlreadyExists])

/-- `pub fn rmdir`: `iopermit!(remove_dir(dir), NotFound, DirectoryNotEmpty)`. -/
def rmdir (p : Path) (fs : FS) : FS × Except IOError Unit :=
  ((remove_dir p fs).1,
    iopermit (remove_dir p fs).2 [IOErrorKind.NotFound, IOErrorKind.DirectoryNotEmpty])

/-- `pub fn rmdir_r`: `iopermit!(remove_dir_all(dir), NotFound)`. -/
def rmdir_r (p : Path) (fs : FS) : FS × Except IOError Unit :=
  ((remove_dir_all p fs).1, iopermit (remove_dir_all p fs).2 [IOErrorKind.NotFound])

/-- `pub fn rmf`: `iopermit!(remove_file(file), NotFound)`. -/
def rmf (p : Path) (fs : FS) : FS × Except IOError Unit :=
  ((remove_file p fs).1, iopermit (remove_file p fs).2 [IOErrorKind.NotFound])

/-- `pub fn rm`: `if p.is_symlink() || p.is_file() { rmf(path) } else { rmdir(path) }`. -/
def rm (p : Path) (fs : FS) : FS × Except IOError Unit :=
  if isSymlinkRaw fs p || isFileStat fs p then rmf p fs else rmdir p fs

/-- `pub fn is_dir`: `Ok(p.is_dir() || (p.is_symlink() && read_link(path)?.is_dir()))`
with the source's short-circuit evaluation order. -/
def is_dir (p : Path) (fs : FS) : Except IOError Bool :=
  if isDirStat fs p then Except.ok true
  else if isSymlinkRaw fs p then
    match read_link fs p with
    | Except.error e => Except.error e
    | Except.ok t => Except.ok (isDirStat fs t)
  else Except.ok false

/-! ### Lemmas about `iopermit` -/

theorem iopermit_nil (r : Except IOError Unit) : iopermit r [] = r := rfl

theorem iopermit_cons (r : Except IOError Unit) (k : IOErrorKind) (ks : List IOErrorKind) :
    iopermit r (k :: ks) = iopermit (permit r (fun e => decide (e.kind = k))) ks := rfl

theorem iopermit_ok (u : Unit) (ks : List IOErrorKind) :
    iopermit (Except.ok u) ks = Except.ok () := by
  induction ks with
  | nil => rfl
  | cons k ks ih => rw [iopermit_cons]; exact ih

theorem iopermit_error_mem {e : IOError} {ks : List IOErrorKind} (h : e.kind ∈ ks) :
    iopermit (Except.error e) ks = Except.ok () := by
  induction ks with
  | nil => simp at h
  | cons k ks ih =>
    by_cases hk : e.kind = k
    · have hp : permit (Except.error e) (fun e => decide (e.kind = k)) = Except.ok () := by
        simp [permit, hk]
      rw [iopermit_cons, hp]
      exact iopermit_ok () ks
    · have hp : permit (Except.error e) (fun e => decide (e.kind = k)) = Except.error e := by
        simp [permit, hk]
      rw [iopermit_cons, hp]
      exact ih ((List.mem_cons.mp h).resolve_left hk)

theorem iopermit_error_not_mem {e : IOError} {ks : List IOErrorKind} (h : e.kind ∉ ks) :
    iopermit (Except.error e) ks = Except.error e := by
  induction ks with
  | nil => rfl
  | cons k ks ih =>
    have hk : e.kind ≠ k := fun hek => h (hek ▸ List.mem_cons_self k ks)
    have hp : permit (Except.error e) (fun e => decide (e.kind = k)) = Except.error e := by
      simp [permit, hk]
    rw [iopermit_cons, hp]
    exact ih (fun hmem => h (List.mem_cons_of_mem k hmem))

theorem iopermit_error_eq_ok {e : IOError} {ks : List IOErrorKind}
    (h : iopermit (Except.error e) ks = Except.ok ()) : e.kind ∈ ks := by
  by_contra hmem
  rw [iopermit_error_not_mem hmem] at h
  exact Except.noConfusion h

theorem iopermit_ok_inv {r : Except IOError Unit} {ks : List IOErrorKind}
    (h : iopermit r ks = Except.ok ()) :
    r = Except.ok () ∨ ∃ e, r = Except.error e ∧ e.kind ∈ ks := by
  cases r with
  | ok u => exact Or.inl rfl
  | error e => exact Or.inr ⟨e, rfl, iopermit_error_eq_ok h⟩

/-! ### Lemmas about `lookupFS`, `statNode` and `stat` -/

theorem lookupFS_cons (q : Path) (n : Node) (fs : FS) (p : Path) :
    lookupFS ((q, n) :: fs) p = if p = q then some n else lookupFS fs p := rfl

theorem lookupFS_length_pos {fs : FS} {p : Path} {n : Node}
    (h : lookupFS fs p = some n) : 0 < fs.length := by
  cases fs with
  | nil => exact absurd h (by simp [lookupFS])
  | cons e fs => simp

/-- More fuel never turns a successful resolution into a failure. -/
theorem statNode_mono {fs : FS} :
    ∀ {n m : Nat} {p : Path} {v : Node}, n ≤ m →
      statNode fs n p = some v → statNode fs m p = some v := by
  intro n
  induction n with
  | zero => intro m p v _ h; exact absurd h (by simp [statNode])
  | succ n ih =>
    intro m p v hnm h
    obtain ⟨m', rfl⟩ : ∃ m', m = m' + 1 := ⟨m - 1, by omega⟩
    rw [statNode] at h ⊢
    cases hl : lookupFS fs p with
    | none => rw [hl] at h; exact h
    | some nd =>
      cases nd with
      | file c => rw [hl] at h; exact h
      | dir => rw [hl] at h; exact h
      | symlink t =>
        rw [hl] at h
        exact ih (by omega) h

/-- Resolution is unaffected by adding an entry at a previously-absent,
non-root key. -/
theorem statNode_cons_none {fs : FS} {q : Path} {nd : Node}
    (hq : lookupFS fs q = none) (hqe : q ≠ []) :
    ∀ {n : Nat} {p : Path} {v : Node},
      statNode fs n p = some v → statNode ((q, nd) :: fs) n p = some v := by
  intro n
  induction n with
  | zero => intro p v h; exact absurd h (by simp [statNode])
  | succ n ih =>
    intro p v h
    rw [statNode] at h ⊢
    by_cases hpq : p = q
    · subst hpq
      rw [hq] at h
      simp [hqe] at h
    · rw [lookupFS_cons, if_neg hpq]
      cases hl : lookupFS fs p with
      | none => rw [hl] at h; exact h
      | some nd' =>
        cases nd' with
        | file c => rw [hl] at h; exact h
        | dir => rw [hl] at h; exact h
        | symlink t => rw [hl] at h; exact ih h

/-- `stat` is unaffected by adding an entry at a previously-absent,
non-root key. -/
theorem stat_cons_none {fs : FS} {q : Path} {nd : Node} {p : Path} {v : Node}
    (hq : lookupFS fs q = none) (hqe : q ≠ []) (h : stat fs p = some v) :
    stat ((q, nd) :: fs) p = some v := by
  have h2 : statNode fs (((q, nd) :: fs).length + 1) p = some v :=
    statNode_mono (by simp) h
  exact statNode_cons_none hq hqe h2

theorem stat_of_lookup_file {fs : FS} {p : Path} {c : Nat}
    (h : lookupFS fs p = some (Node.file c)) : stat fs p = some (Node.file c) := by
  rw [stat, statNode, h]

theorem stat_of_lookup_dir {fs : FS} {p : Path}
    (h : lookupFS fs p = some Node.dir) : stat fs p = some Node.dir := by
  rw [stat, statNode, h]

theorem stat_of_lookup_none {fs : FS} {p : Path}
    (h : lookupFS fs p = none) (hp : p ≠ []) : stat fs p = none := by
  rw [stat, statNode, h]
  simp [hp]

/-- Resolving a symlink whose stored target is an absent non-root path
fails (the broken-symlink case). -/
theorem stat_symlink_broken {fs : FS} {p t : Path}
    (hl : lookupFS fs p = some (Node.symlink t))
    (ht : lookupFS fs t = none) (hte : t ≠ []) : stat fs p = none := by
  obtain ⟨k, hk⟩ : ∃ k, fs.length = k + 1 := by
    cases fs with
    | nil => exact absurd hl (by simp [lookupFS])
    | cons e fs => exact ⟨fs.length, rfl⟩
  rw [stat, hk]
  simp only [statNode, hl, ht]
  simp [hte]

/-- Resolving a symlink whose stored target is a directory entry yields
that directory. -/
theorem stat_symlink_dir {fs : FS} {p t : Path}
    (hl : lookupFS fs p = some (Node.symlink t))
    (ht : lookupFS fs t = some Node.dir) : stat fs p = some Node.dir := by
  obtain ⟨k, hk⟩ : ∃ k, fs.length = k + 1 := by
    cases fs with
    | nil => exact absurd hl (by simp [lookupFS])
    | cons e fs => exact ⟨fs.length, rfl⟩
  rw [stat, hk]
  simp only [statNode, hl, ht]

/-- Resolving a symlink whose stored target is a regular-file entry
yields that file. -/
theorem stat_symlink_file {fs : FS} {p t : Path} {c : Nat}
    (hl : lookupFS fs p = some (Node.symlink t))
    (ht : lookupFS fs t = some (Node.file c)) : stat fs p = some (Node.file c) := by
  obtain ⟨k, hk⟩ : ∃ k, fs.length = k + 1 := by
    cases fs with
    | nil => exact absurd hl (by simp [lookupFS])
    | cons e fs => exact ⟨fs.length, rfl⟩
  rw [stat, hk]
  simp only [statNode, hl, ht]

/-! ### Lemmas about `removeKey` -/

theorem lookupFS_removeKey_self (fs : FS) (p : Path) :
    lookupFS (removeKey fs p) p = none := by
  induction fs with
  | nil => rfl
  | cons e fs ih =>
    rcases e with ⟨q, n⟩
    by_cases hq : q = p
    · subst hq
      simpa [removeKey, List.filter_cons] using ih
    · simpa [removeKey, List.filter_cons, hq, lookupFS_cons, Ne.symm hq] using ih

theorem lookupFS_removeKey_ne {q p : Path} (h : q ≠ p) (fs : FS) :
    lookupFS (removeKey fs p) q = lookupFS fs q := by
  induction fs with
  | nil => rfl
  | cons e fs ih =>
    rcases e with ⟨a, n⟩
    by_cases ha : a = p
    · subst ha
      simpa [removeKey, List.filter_cons, lookupFS_cons, h] using ih
    · by_cases hqa : q = a
      · subst hqa
        simp [removeKey, List.filter_cons, ha, lookupFS_cons]
      · simpa [removeKey, List.filter_cons, ha, lookupFS_cons, hqa] using ih

/-! ### Lemmas about `mkChain` / `create_dir_all` -/

/-- The ancestor walk never disturbs an existing entry. -/
theorem mkChain_lookup_mono {t : Path} :
    ∀ {l : List Path} {fs : FS} {r : Path} {n : Node},
      lookupFS fs r = some n → lookupFS (mkChain t l fs).1 r = some n := by
  intro l
  induction l with
  | nil => intro fs r n h; exact h
  | cons q qs ih =>
    intro fs r n h
    rw [mkChain]
    by_cases hq : q = []
    · rw [if_pos hq]; exact ih h
    · rw [if_neg hq]
      cases hl : lookupFS fs q with
      | none =>
        have hne : r ≠ q := fun hrq => by rw [hrq, hl] at h; exact Option.noConfusion h
        exact ih (by rw [lookupFS_cons, if_neg hne]; exact h)
      | some nd =>
        cases nd with
        | dir => exact ih h
        | file c => exact h
        | symlink s => exact h

/-- After a successful ancestor walk, every non-root processed prefix is a
directory entry. -/
theorem mkChain_ok_mem_dir {t : Path} :
    ∀ {l : List Path} {fs fs' : FS}, mkChain t l fs = (fs', Except.ok ()) →
      ∀ {q : Path}, q ∈ l → q ≠ [] → lookupFS fs' q = some Node.dir := by
  intro l
  induction l with
  | nil => intro fs fs' _ q hq; exact absurd hq (List.not_mem_nil q)
  | cons a as ih =>
    intro fs fs' h q hq hqe
    rw [mkChain] at h
    by_cases ha : a = []
    · rw [if_pos ha] at h
      rcases List.mem_cons.mp hq with rfl | hq'
      · exact absurd ha hqe
      · exact ih h hq' hqe
    · rw [if_neg ha] at h
      cases hl : lookupFS fs a with
      | none =>
        simp only [hl] at h
        rcases List.mem_cons.mp hq with rfl | hq'
        · have hm := mkChain_lookup_mono (t := t) (l := as)
            (show lookupFS ((q, Node.dir) :: fs) q = some Node.dir by
              rw [lookupFS_cons, if_pos rfl])
          rw [h] at hm
          exact hm
        · exact ih h hq' hqe
      | some nd =>
        cases nd with
        | dir =>
          simp only [hl] at h
          rcases List.mem_cons.mp hq with rfl | hq'
          · have hm := mkChain_lookup_mono (t := t) (l := as) hl
            rw [h] at hm
            exact hm
          · exact ih h hq' hqe
        | file c => simp only [hl] at h; exact absurd (congrArg Prod.snd h) (by simp [err])
        | symlink s => simp only [hl] at h; exact absurd (congrArg Prod.snd h) (by simp [err])

/-- Walking a chain of already-present directories changes nothing. -/
theorem mkChain_all_dir_noop {t : Path} :
    ∀ {l : List Path} {fs : FS},
      (∀ q ∈ l, q = [] ∨ lookupFS fs q = some Node.dir) →
      mkChain t l fs = (fs, Except.ok ()) := by
  intro l
  induction l with
  | nil => intro fs _; rfl
  | cons a as ih =>
    intro fs h
    rw [mkChain]
    rcases h a (List.mem_cons_self a as) with ha | ha
    · rw [if_pos ha]
      exact ih (fun q hq => h q (List.mem_cons_of_mem a hq))
    · by_cases hae : a = []
      · rw [if_pos hae]
        exact ih (fun q hq => h q (List.mem_cons_of_mem a hq))
      · rw [if_neg hae, ha]
        exact ih (fun q hq => h q (List.mem_cons_of_mem a hq))

/-- The ancestor walk touches only keys from its prefix list. -/
theorem mkChain_lookup_outside {t : Path} :
    ∀ {l : List Path} {fs : FS} {r : Path}, r ∉ l →
      lookupFS (mkChain t l fs).1 r = lookupFS fs r := by
  intro l
  induction l with
  | nil => intro fs r _; rfl
  | cons a as ih =>
    intro fs r hr
    have hra : r ≠ a := fun h => hr (h ▸ List.mem_cons_self a as)
    have hras : r ∉ as := fun h => hr (List.mem_cons_of_mem a h)
    rw [mkChain]
    by_cases ha : a = []
    · rw [if_pos ha]; exact ih hras
    · rw [if_neg ha]
      cases hl : lookupFS fs a with
      | none => rw [ih hras, lookupFS_cons, if_neg hra]
      | some nd =>
        cases nd with
        | dir => exact ih hras
        | file c => rfl
        | symlink s => rfl

/-- A failed ancestor walk fails identically when re-run from the state it
left behind. -/
theorem mkChain_err_idem {t : Path} :
    ∀ {l : List Path} {fs fs' : FS} {e : IOError},
      mkChain t l fs = (fs', Except.error e) →
      mkChain t l fs' = (fs', Except.error e) := by
  intro l
  induction l with
  | nil => intro fs fs' e h; simp [mkChain] at h
  | cons a as ih =>
    intro fs fs' e h
    rw [mkChain] at h
    by_cases ha : a = []
    · rw [if_pos ha] at h
      rw [mkChain, if_pos ha]
      exact ih h
    · rw [if_neg ha] at h
      cases hl : lookupFS fs a with
      | none =>
        simp only [hl] at h
        have hm := mkChain_lookup_mono (t := t) (l := as)
          (show lookupFS ((a, Node.dir) :: fs) a = some Node.dir by
            rw [lookupFS_cons, if_pos rfl])
        rw [h] at hm
        rw [mkChain, if_neg ha, hm]
        exact ih h
      | some nd =>
        cases nd with
        | dir =>
          simp only [hl] at h
          have hm := mkChain_lookup_mono (t := t) (l := as) hl
          rw [h] at hm
          rw [mkChain, if_neg ha, hm]
          exact ih h
        | file c =>
          simp only [hl] at h
          have hfs : fs' = fs := (congrArg Prod.fst h).symm
          subst hfs
          rw [mkChain, if_neg ha]
          simp only [hl]
          exact h
        | symlink s =>
          simp only [hl] at h
          have hfs : fs' = fs := (congrArg Prod.fst h).symm
          subst hfs
          rw [mkChain, if_neg ha]
          simp only [hl]
          exact h

/-- A successful ancestor walk is a no-op when re-run from the state it
produced. -/
theorem mkChain_ok_idem {t : Path} {l : List Path} {fs fs' : FS}
    (h : mkChain t l fs = (fs', Except.ok ())) :
    mkChain t l fs' = (fs', Except.ok ()) :=
  mkChain_all_dir_noop (fun q hq => by
    by_cases hqe : q = []
    · exact Or.inl hqe
    · exact Or.inr (mkChain_ok_mem_dir h hq hqe))

/-! ### Inversion lemmas for the creation primitives -/

theorem parentPath_eq_some {p par : Path} (h : parentPath p = some par) :
    p ≠ [] ∧ par = p.dropLast := by
  by_cases hp : p = []
  · rw [parentPath, if_pos hp] at h
    exact absurd h (by simp)
  · rw [parentPath, if_neg hp] at h
    exact ⟨hp, (Option.some.inj h).symm⟩

theorem create_new_ok_inv {p : Path} {fs fs' : FS}
    (h : create_new p fs = (fs', Except.ok ())) :
    lookupFS fs p = none ∧ p ≠ [] ∧ stat fs p.dropLast = some Node.dir ∧
      fs' = (p, Node.file 0) :: fs := by
  rw [create_new] at h
  cases hl : lookupFS fs p with
  | some n => simp only [hl] at h; simp [err] at h
  | none =>
    simp only [hl] at h
    by_cases hp : p = []
    · rw [if_pos hp] at h; simp [err] at h
    · rw [if_neg hp] at h
      cases hs : stat fs p.dropLast with
      | none => simp only [hs] at h; simp [err] at h
      | some nd =>
        cases nd with
        | dir =>
          simp only [hs] at h
          exact ⟨rfl, hp, rfl, (congrArg Prod.fst h).symm⟩
        | file c => simp only [hs] at h; simp [err] at h
        | symlink t => simp only [hs] at h; simp [err] at h

theorem create_new_error_inv {p : Path} {fs fs' : FS} {e : IOError}
    (h : create_new p fs = (fs', Except.error e)) : fs' = fs := by
  rw [create_new] at h
  cases hl : lookupFS fs p with
  | some n =>
    simp only [hl] at h
    exact (congrArg Prod.fst h).symm
  | none =>
    simp only [hl] at h
    by_cases hp : p = []
    · rw [if_pos hp] at h; exact (congrArg Prod.fst h).symm
    · rw [if_neg hp] at h
      cases hs : stat fs p.dropLast with
      | none => simp only [hs] at h; exact (congrArg Prod.fst h).symm
      | some nd =>
        cases nd with
        | dir => simp only [hs] at h; simp at h
        | file c => simp only [hs] at h; exact (congrArg Prod.fst h).symm
        | symlink t => simp only [hs] at h; exact (congrArg Prod.fst h).symm

/-! ### Idempotence of the creation wrappers -/

theorem mkdir_idem {p : Path} {fs : FS} (h : (mkdir p fs).2 = Except.ok ()) :
    mkdir p (mkdir p fs).1 = ((mkdir p fs).1, Except.ok ()) := by
  cases hl : lookupFS fs p with
  | some n =>
    have hcd : create_dir p fs = (fs, err IOErrorKind.AlreadyExists) := by
      rw [create_dir]; simp only [hl]
    have h1 : mkdir p fs = (fs, Except.ok ()) := by rw [mkdir, hcd]; rfl
    rw [h1, h1]
  | none =>
    by_cases hp : p = []
    · have hcd : create_dir p fs = (fs, err IOErrorKind.AlreadyExists) := by
        rw [create_dir]; simp only [hl]; rw [if_pos hp]
      have h1 : mkdir p fs = (fs, Except.ok ()) := by rw [mkdir, hcd]; rfl
      rw [h1, h1]
    · cases hs : stat fs p.dropLast with
      | none =>
        have hcd : create_dir p fs = (fs, err IOErrorKind.NotFound) := by
          rw [create_dir]; simp only [hl]; rw [if_neg hp]; simp only [hs]
        rw [mkdir, hcd] at h
        exact absurd (show iopermit (err IOErrorKind.NotFound)
          [IOErrorKind.AlreadyExists] = Except.ok () from h) (by decide)
      | some nd =>
        cases nd with
        | dir =>
          have hcd : create_dir p fs = ((p, Node.dir) :: fs, Except.ok ()) := by
            rw [create_dir]; simp only [hl]; rw [if_neg hp]; simp only [hs]
          have h1 : mkdir p fs = ((p, Node.dir) :: fs, Except.ok ()) := by
            rw [mkdir, hcd]; rfl
          have hl2 : lookupFS ((p, Node.dir) :: fs) p = some Node.dir := by
            rw [lookupFS_cons, if_pos rfl]
          have hcd2 : create_dir p ((p, Node.dir) :: fs)
              = ((p, Node.dir) :: fs, err IOErrorKind.AlreadyExists) := by
            rw [create_dir]; simp only [hl2]
          rw [h1, mkdir, hcd2]; rfl
        | file c =>
          have hcd : create_dir p fs = (fs, err IOErrorKind.NotADirectory) := by
            rw [create_dir]; simp only [hl]; rw [if_neg hp]; simp only [hs]
          rw [mkdir, hcd] at h
          exact absurd (show iopermit (err IOErrorKind.NotADirectory)
            [IOErrorKind.AlreadyExists] = Except.ok () from h) (by decide)
        | symlink t =>
          have hcd : create_dir p fs = (fs, err IOErrorKind.NotADirectory) := by
            rw [create_dir]; simp only [hl]; rw [if_neg hp]; simp only [hs]
          rw [mkdir, hcd] at h
          exact absurd (show iopermit (err IOErrorKind.NotADirectory)
            [IOErrorKind.AlreadyExists] = Except.ok () from h) (by decide)

theorem mkf_idem {p : Path} {fs : FS} (h : (mkf p fs).2 = Except.ok ()) :
    mkf p (mkf p fs).1 = ((mkf p fs).1, Except.ok ()) := by
  cases hl : lookupFS fs p with
  | some n =>
    have hcd : create_new p fs = (fs, err IOErrorKind.AlreadyExists) := by
      rw [create_new]; simp only [hl]
    have h1 : mkf p fs = (fs, Except.ok ()) := by rw [mkf, hcd]; rfl
    rw [h1, h1]
  | none =>
    by_cases hp : p = []
    · have hcd : create_new p fs = (fs, err IOErrorKind.AlreadyExists) := by
        rw [create_new]; simp only [hl]; rw [if_pos hp]
      have h1 : mkf p fs = (fs, Except.ok ()) := by rw [mkf, hcd]; rfl
      rw [h1, h1]
    · cases hs : stat fs p.dropLast with
      | none =>
        have hcd : create_new p fs = (fs, err IOErrorKind.NotFound) := by
          rw [create_new]; simp only [hl]; rw [if_neg hp]; simp only [hs]
        rw [mkf, hcd] at h
        exact absurd (show iopermit (err IOErrorKind.NotFound)
          [IOErrorKind.AlreadyExists] = Except.ok () from h) (by decide)
      | some nd =>
        cases nd with
        | dir =>
          have hcd : create_new p fs = ((p, Node.file 0) :: fs, Except.ok ()) := by
            rw [create_new]; simp only [hl]; rw [if_neg hp]; simp only [hs]
          have h1 : mkf p fs = ((p, Node.file 0) :: fs, Except.ok ()) := by
            rw [mkf, hcd]; rfl
          have hl2 : lookupFS ((p, Node.file 0) :: fs) p = some (Node.file 0) := by
            rw [lookupFS_cons, if_pos rfl]
          have hcd2 : create_new p ((p, Node.file 0) :: fs)
              = ((p, Node.file 0) :: fs, err IOErrorKind.AlreadyExists) := by
            rw [create_new]; simp only [hl2]
          rw [h1, mkf, hcd2]; rfl
        | file c =>
          have hcd : create_new p fs = (fs, err IOErrorKind.NotADirectory) := by
            rw [create_new]; simp only [hl]; rw [if_neg hp]; simp only [hs]
          rw [mkf, hcd] at h
          exact absurd (show iopermit (err IOErrorKind.NotADirectory)
            [IOErrorKind.AlreadyExists] = Except.ok () from h) (by decide)
        | symlink t =>
          have hcd : create_new p fs = (fs, err IOErrorKind.NotADirectory) := by
            rw [create_new]; simp only [hl]; rw [if_neg hp]; simp only [hs]
          rw [mkf, hcd] at h
          exact absurd (show iopermit (err IOErrorKind.NotADirectory)
            [IOErrorKind.AlreadyExists] = Except.ok () from h) (by decide)

theorem mkdir_p_idem {p : Path} {fs : FS} (h : (mkdir_p p fs).2 = Except.ok ()) :
    mkdir_p p (mkdir_p p fs).1 = ((mkdir_p p fs).1, Except.ok ()) := by
  rcases hca : create_dir_all p fs with ⟨fs1, r⟩
  cases r with
  | ok u =>
    cases u
    have hok : mkChain p p.inits fs = (fs1, Except.ok ()) := by
      rw [← create_dir_all]; exact hca
    have h2 : mkChain p p.inits fs1 = (fs1, Except.ok ()) := mkChain_ok_idem hok
    have h1 : mkdir_p p fs = (fs1, Except.ok ()) := by
      rw [mkdir_p, hca]; rfl
    have h3 : mkdir_p p fs1 = (fs1, Except.ok ()) := by
      rw [mkdir_p, create_dir_all, h2]; rfl
    rw [h1, h3]
  | error e =>
    have herr : mkChain p p.inits fs = (fs1, Except.error e) := by
      rw [← create_dir_all]; exact hca
    have h2 : mkChain p p.inits fs1 = (fs1, Except.error e) := mkChain_err_idem herr
    have h1 : mkdir_p p fs = (fs1, iopermit (Except.error e) [IOErrorKind.AlreadyExists]) := by
      rw [mkdir_p, hca]
    rw [h1] at h
    have hok : iopermit (Except.error e) [IOErrorKind.AlreadyExists] = Except.ok () := h
    have hA : mkdir_p p fs = (fs1, Except.ok ()) := by rw [h1, hok]
    have hB : mkdir_p p fs1 = (fs1, Except.ok ()) := by
      rw [mkdir_p, create_dir_all, h2]
      exact congrArg (Prod.mk fs1) hok
    rw [hA]; exact hB

theorem mkf_p_idem {p : Path} {fs : FS} (h : (mkf_p p fs).2 = Except.ok ()) :
    mkf_p p (mkf_p p fs).1 = ((mkf_p p fs).1, Except.ok ()) := by
  cases hpp : parentPath p with
  | none =>
    have hp : p = [] := by
      by_contra hne
      rw [parentPath, if_neg hne] at hpp
      exact Option.noConfusion hpp
    subst hp
    have hcn : create_new [] fs = (fs, err IOErrorKind.AlreadyExists) := by
      rw [create_new]
      cases hl : lookupFS fs [] with
      | some n => simp only [hl]
      | none => simp [hl]
    have hA : mkf_p [] fs = (fs, Except.ok ()) := by
      rw [mkf_p]
      simp only [hpp]
      rw [hcn]
      rfl
    rw [hA]; exact hA
  | some par =>
    have hpne : p ≠ [] := (parentPath_eq_some hpp).1
    have hpar : par = p.dropLast := (parentPath_eq_some hpp).2
    by_cases hex : pathExists fs par
    · have hfirst : mkf_p p fs
          = ((create_new p fs).1, iopermit (create_new p fs).2 [IOErrorKind.AlreadyExists]) := by
        rw [mkf_p]; simp only [hpp]; rw [if_pos hex]
      rcases hcn : create_new p fs with ⟨fs2, r2⟩
      cases r2 with
      | ok u =>
        cases u
        obtain ⟨hl, hpe, hsd, hfs2⟩ := create_new_ok_inv hcn
        have hA : mkf_p p fs = (fs2, Except.ok ()) := by
          rw [hfirst, hcn]; rfl
        obtain ⟨v, hv⟩ : ∃ v, stat fs par = some v := by
          rcases hsv : stat fs par with _ | v
          · rw [pathExists, hsv] at hex; simp at hex
          · exact ⟨v, rfl⟩
        have hv2 : stat fs2 par = some v := by
          rw [hfs2]; exact stat_cons_none hl hpe hv
        have hex2 : pathExists fs2 par = true := by
          rw [pathExists, hv2]; rfl
        have hl2 : lookupFS fs2 p = some (Node.file 0) := by
          rw [hfs2, lookupFS_cons, if_pos rfl]
        have hcn2 : create_new p fs2 = (fs2, err IOErrorKind.AlreadyExists) := by
          rw [create_new]; simp only [hl2]
        have hB : mkf_p p fs2 = (fs2, Except.ok ()) := by
          rw [mkf_p]
          simp only [hpp]
          rw [if_pos hex2, hcn2]
          rfl
        rw [hA]; exact hB
      | error e =>
        have hst : fs2 = fs := create_new_error_inv hcn
        have h1 : mkf_p p fs = (fs2, iopermit (Except.error e) [IOErrorKind.AlreadyExists]) := by
          rw [hfirst, hcn]
        rw [h1] at h
        have hok : iopermit (Except.error e) [IOErrorKind.AlreadyExists] = Except.ok () := h
        have hA : mkf_p p fs = (fs2, Except.ok ()) := by rw [h1, hok]
        have hB : mkf_p p fs2 = (fs2, Except.ok ()) := by
          have hA2 := hA
          rw [hst] at hA2
          rw [hst]
          exact hA2
        rw [hA]; exact hB
    · rcases hm : mkdir_p par fs with ⟨fs1, r1⟩
      cases r1 with
      | error e =>
        have h1 : mkf_p p fs = (fs1, Except.error e) := by
          rw [mkf_p]; simp only [hpp]; rw [if_neg hex]; simp only [hm]
        rw [h1] at h
        exact absurd h (by simp)
      | ok u =>
        cases u
        have hmp2 : mkdir_p par fs1 = (fs1, Except.ok ()) := by
          have hi := mkdir_p_idem (show (mkdir_p par fs).2 = Except.ok () by rw [hm])
          rw [hm] at hi
          exact hi
        rcases hcn : create_new p fs1 with ⟨fs2, r2⟩
        have h1 : mkf_p p fs = (fs2, iopermit r2 [IOErrorKind.AlreadyExists]) := by
          rw [mkf_p]; simp only [hpp]; rw [if_neg hex]; simp only [hm]; rw [hcn]
        cases r2 with
        | ok u2 =>
          cases u2
          obtain ⟨hl1, hpe, hsd, hfs2⟩ := create_new_ok_inv hcn
          have hA : mkf_p p fs = (fs2, Except.ok ()) := by
            rw [h1]; rfl
          have hsd1 : stat fs1 par = some Node.dir := by rw [hpar]; exact hsd
          have hsd2 : stat fs2 par = some Node.dir := by
            rw [hfs2]; exact stat_cons_none hl1 hpe hsd1
          have hex2 : pathExists fs2 par = true := by
            rw [pathExists, hsd2]; rfl
          have hl2 : lookupFS fs2 p = some (Node.file 0) := by
            rw [hfs2, lookupFS_cons, if_pos rfl]
          have hcn2 : create_new p fs2 = (fs2, err IOErrorKind.AlreadyExists) := by
            rw [create_new]; simp only [hl2]
          have hB : mkf_p p fs2 = (fs2, Except.ok ()) := by
            rw [mkf_p]
            simp only [hpp]
            rw [if_pos hex2, hcn2]
            rfl
          rw [hA]; exact hB
        | error e2 =>
          have hst : fs2 = fs1 := create_new_error_inv hcn
          rw [h1] at h
          have hok : iopermit (Except.error e2) [IOErrorKind.AlreadyExists] = Except.ok () := h
          have hA : mkf_p p fs = (fs2, Except.ok ()) := by rw [h1, hok]
          rw [hst] at hA hcn
          have hB : mkf_p p fs1 = (fs1, Except.ok ()) := by
            by_cases hex1 : pathExists fs1 par
            · rw [mkf_p]
              simp only [hpp]
              rw [if_pos hex1, hcn]
              exact congrArg (Prod.mk fs1) hok
            · rw [mkf_p]
              simp only [hpp]
              rw [if_neg hex1]
              simp only [hmp2]
              rw [hcn]
              exact congrArg (Prod.mk fs1) hok
          rw [hA]; exact hB

/-! ### Behaviour of the removal wrappers -/

theorem rmdir_populated_aux {fs : FS} {p : Path} (hp : p ≠ [])
    (hd : lookupFS fs p = some Node.dir) (hc : hasChild fs p = true) :
    rmdir p fs = (fs, Except.ok ()) := by
  have hrd : remove_dir p fs = (fs, err IOErrorKind.DirectoryNotEmpty) := by
    rw [remove_dir, if_neg hp]
    simp only [hd]
    simp [hc]
  rw [rmdir, hrd]
  rfl

theorem rm_populated_aux {fs : FS} {p : Path} (hp : p ≠ [])
    (hd : lookupFS fs p = some Node.dir) (hc : hasChild fs p = true) :
    rm p fs = (fs, Except.ok ()) := by
  have hsym : isSymlinkRaw fs p = false := by rw [isSymlinkRaw]; simp only [hd]
  have hfile : isFileStat fs p = false := by
    rw [isFileStat, stat_of_lookup_dir hd]
  rw [rm, hsym, hfile]
  exact rmdir_populated_aux hp hd hc

/-! ## Claims -/

/-- C3: for every operation, each of which filters its primitive's result
through `iopermit`, and every error `e` produced by the underlying OS
primitive: a successful primitive call stays the indistinguishable
`Except.ok ()`, an error whose classification is in the permitted set is
absorbed into the very same `Except.ok ()`, and an error whose
classification is not permitted is returned unchanged — the identical
error value, with no wrapping or translation. -/
theorem iopermit_absorbs_or_propagates (e : IOError) (ks : List IOErrorKind) (u : Unit) :
    iopermit (Except.ok u) ks = Except.ok () ∧
    (e.kind ∈ ks → iopermit (Except.error e) ks = Except.ok ()) ∧
    (e.kind ∉ ks → iopermit (Except.error e) ks = Except.error e) :=
  ⟨iopermit_ok u ks, fun h => iopermit_error_mem h, fun h => iopermit_error_not_mem h⟩

/-- C3 witness: a permitted `NotFound` (payload 7) is absorbed into
success, while a `PermissionDenied` with the same payload passes through
as the identical error value. -/
theorem iopermit_absorbs_or_propagates_witness :
    iopermit (Except.error ⟨IOErrorKind.NotFound, 7⟩) [IOErrorKind.NotFound]
      = Except.ok () ∧
    iopermit (Except.error ⟨IOErrorKind.PermissionDenied, 7⟩) [IOErrorKind.NotFound]
      = Except.error ⟨IOErrorKind.PermissionDenied, 7⟩ :=
  ⟨(iopermit_absorbs_or_propagates ⟨IOErrorKind.NotFound, 7⟩ [IOErrorKind.NotFound] ()).2.1
      (by decide),
   (iopermit_absorbs_or_propagates ⟨IOErrorKind.PermissionDenied, 7⟩
      [IOErrorKind.NotFound] ()).2.2 (by decide)⟩

/-- C10: the already-exists permit is judged solely by the OS error
classification, not by the type of the entry occupying the path: `mkdir`
on a path occupied by a regular file, and `mkf` on a path occupied by a
directory, both return success with the state unchanged, even though
afterwards the path still resolves to the original entry (no directory,
respectively no regular file, exists there). -/
theorem permit_ignores_entry_type (fs : FS) (p : Path) :
    (∀ c, lookupFS fs p = some (Node.file c) →
      mkdir p fs = (fs, Except.ok ()) ∧ stat fs p = some (Node.file c)) ∧
    (lookupFS fs p = some Node.dir →
      mkf p fs = (fs, Except.ok ()) ∧ stat fs p = some Node.dir) := by
  constructor
  · intro c hf
    have hcd : create_dir p fs = (fs, err IOErrorKind.AlreadyExists) := by
      rw [create_dir]; simp only [hf]
    exact ⟨by rw [mkdir, hcd]; rfl, stat_of_lookup_file hf⟩
  · intro hd
    have hcd : create_new p fs = (fs, err IOErrorKind.AlreadyExists) := by
      rw [create_new]; simp only [hd]
    exact ⟨by rw [mkf, hcd]; rfl, stat_of_lookup_dir hd⟩

/-- C10 witness: `mkdir` on a path holding a regular file and `mkf` on a
path holding a directory both succeed and leave the state unchanged. -/
theorem permit_ignores_entry_type_witness :
    mkdir ["f"] [(["f"], Node.file 3)] = ([(["f"], Node.file 3)], Except.ok ()) ∧
    mkf ["d"] [(["d"], Node.dir)] = ([(["d"], Node.dir)], Except.ok ()) :=
  ⟨((permit_ignores_entry_type [(["f"], Node.file 3)] ["f"]).1 3 (by decide)).1,
   ((permit_ignores_entry_type [(["d"], Node.dir)] ["d"]).2 (by decide)).1⟩

/-- C6: `rmdir` (non-recursive) on a non-root directory containing at
least one entry succeeds — `remove_dir` reports `DirectoryNotEmpty`,
which is in `rmdir`'s permitted set — and the filesystem is returned
entirely unchanged, so the directory and all of its contents are still
present. -/
theorem rmdir_populated_noop (fs : FS) (p : Path) (hp : p ≠ [])
    (hd : lookupFS fs p = some Node.dir) (hc : hasChild fs p = true) :
    rmdir p fs = (fs, Except.ok ()) :=
  rmdir_populated_aux hp hd hc

/-- C6 witness: `rmdir` on directory `d` containing file `d/f` succeeds
and preserves the whole state. -/
theorem rmdir_populated_noop_witness :
    rmdir ["d"] [(["d"], Node.dir), (["d", "f"], Node.file 0)]
      = ([(["d"], Node.dir), (["d", "f"], Node.file 0)], Except.ok ()) :=
  rmdir_populated_noop [(["d"], Node.dir), (["d", "f"], Node.file 0)] ["d"]
    (by decide) (by decide) (by decide)

/-- C1 counterexample: on the state with directory `d` containing file
`d/f`, `rm d` returns success, yet afterwards both the directory and its
content still exist — refuting the claim that `rm` recurses into
directories and removes their contents. -/
theorem rm_populated_dir_claim_false :
    (rm ["d"] [(["d"], Node.dir), (["d", "f"], Node.file 0)]).2 = Except.ok () ∧
    lookupFS (rm ["d"] [(["d"], Node.dir), (["d", "f"], Node.file 0)]).1 ["d"]
      = some Node.dir ∧
    lookupFS (rm ["d"] [(["d"], Node.dir), (["d", "f"], Node.file 0)]).1 ["d", "f"]
      = some (Node.file 0) := by
  refine ⟨?_, ?_, ?_⟩ <;> decide

/-- C1 (amended): `rm` on a non-root path that denotes a directory
dispatches to the non-recursive `rmdir` (the type check sees neither a
symlink nor a regular file); when the directory contains at least one
entry the call still succeeds (`DirectoryNotEmpty` is permitted), but the
directory and all of its contents remain — the state is unchanged. -/
theorem rm_populated_dir_preserved (fs : FS) (p : Path) (hp : p ≠ [])
    (hd : lookupFS fs p = some Node.dir) (hc : hasChild fs p = true) :
    rm p fs = (fs, Except.ok ()) :=
  rm_populated_aux hp hd hc

/-- C1 witness: `rm` on populated directory `d` succeeds and preserves
the whole state. -/
theorem rm_populated_dir_preserved_witness :
    rm ["d"] [(["d"], Node.dir), (["d", "f"], Node.file 7)]
      = ([(["d"], Node.dir), (["d", "f"], Node.file 7)], Except.ok ()) :=
  rm_populated_dir_preserved [(["d"], Node.dir), (["d", "f"], Node.file 7)] ["d"]
    (by decide) (by decide) (by decide)

/-- C5 counterexample: at the state holding only the regular file `f`,
nothing exists at `f/x`, yet `rmf`, `rmdir_r` and `rm` all fail: path
resolution hits the non-directory prefix `f` and the OS reports
`NotADirectory` (ENOTDIR), which none of the removal permit sets
contains — refuting the claim that removal succeeds on every path at
which nothing exists. -/
theorem remove_missing_claim_false :
    (rmf ["f", "x"] [(["f"], Node.file 0)]).2
      = Except.error ⟨IOErrorKind.NotADirectory, 0⟩ ∧
    (rmdir_r ["f", "x"] [(["f"], Node.file 0)]).2
      = Except.error ⟨IOErrorKind.NotADirectory, 0⟩ ∧
    (rm ["f", "x"] [(["f"], Node.file 0)]).2
      = Except.error ⟨IOErrorKind.NotADirectory, 0⟩ := by
  refine ⟨?_, ?_, ?_⟩ <;> decide

/-- C5 (amended): on a non-root path at which nothing exists (no entry of
any kind) and whose parent resolves to a directory — so that the OS
reports `NotFound` rather than `ENOTDIR` — `rmf`, `rmdir_r` and `rm` all
succeed (each permits `NotFound`) and the filesystem state is returned
unchanged. (For a top-level path the parent is the implicit root
directory, so the side condition holds automatically.) -/
theorem remove_missing_noop (fs : FS) (p : Path) (hp : p ≠ [])
    (h : lookupFS fs p = none) (hpar : stat fs p.dropLast = some Node.dir) :
    rmf p fs = (fs, Except.ok ()) ∧ rmdir_r p fs = (fs, Except.ok ()) ∧
      rm p fs = (fs, Except.ok ()) := by
  have hrf : remove_file p fs = (fs, err IOErrorKind.NotFound) := by
    rw [remove_file, if_neg hp]; simp only [h, hpar]
  have hrda : remove_dir_all p fs = (fs, err IOErrorKind.NotFound) := by
    rw [remove_dir_all, if_neg hp]; simp only [h, hpar]
  have hrd : remove_dir p fs = (fs, err IOErrorKind.NotFound) := by
    rw [remove_dir, if_neg hp]; simp only [h, hpar]
  refine ⟨?_, ?_, ?_⟩
  · rw [rmf, hrf]; rfl
  · rw [rmdir_r, hrda]; rfl
  · have hsym : isSymlinkRaw fs p = false := by rw [isSymlinkRaw]; simp only [h]
    have hfile : isFileStat fs p = false := by
      rw [isFileStat, stat_of_lookup_none h hp]
    rw [rm, hsym, hfile, rmdir, hrd]
    rfl

/-- C5 witness: on a one-file state, all three removal operations applied
to the absent top-level path `x` (parent: the root directory) succeed and
leave the state unchanged. -/
theorem remove_missing_noop_witness :
    rmf ["x"] [(["f"], Node.file 0)] = ([(["f"], Node.file 0)], Except.ok ()) ∧
    rmdir_r ["x"] [(["f"], Node.file 0)] = ([(["f"], Node.file 0)], Except.ok ()) ∧
    rm ["x"] [(["f"], Node.file 0)] = ([(["f"], Node.file 0)], Except.ok ()) :=
  remove_missing_noop [(["f"], Node.file 0)] ["x"] (by decide) (by decide) (by decide)

/-- C2 counterexample: on a state holding only the broken symlink
`s -> t` (target absent), `is_dir s` returns the success value `false`,
not a failure — `read_link` succeeds on a broken symlink because it reads
the link itself, not its target, so the `?` never fires. -/
theorem is_dir_broken_symlink_claim_false :
    is_dir ["s"] [(["s"], Node.symlink ["t"])] = Except.ok false := by decide

/-- C2 (amended): for every broken symbolic link (a symlink entry whose
stored target is an absent, non-root path), `is_dir` returns `Ok false`:
`p.is_dir()` is `false` because resolution fails, `p.is_symlink()` is
`true`, `read_link` succeeds with the stored target, and the target does
not resolve to a directory. Only a failure of `read_link` itself would
propagate, and that cannot arise here. -/
theorem is_dir_broken_symlink_ok_false (fs : FS) (p t : Path)
    (hl : lookupFS fs p = some (Node.symlink t))
    (ht : lookupFS fs t = none) (hte : t ≠ []) :
    is_dir p fs = Except.ok false := by
  have hsp : stat fs p = none := stat_symlink_broken hl ht hte
  have hdp : isDirStat fs p = false := by rw [isDirStat, hsp]
  have hsym : isSymlinkRaw fs p = true := by rw [isSymlinkRaw]; simp only [hl]
  have hrl : read_link fs p = Except.ok t := by rw [read_link]; simp only [hl]
  have hdt : isDirStat fs t = false := by rw [isDirStat, stat_of_lookup_none ht hte]
  simp [is_dir, hdp, hsym, hrl, hdt]

/-- C2 witness: the amended statement evaluated on the concrete broken
symlink `s -> missing`. -/
theorem is_dir_broken_symlink_ok_false_witness :
    is_dir ["s"] [(["s"], Node.symlink ["missing"]), (["f"], Node.file 0)]
      = Except.ok false :=
  is_dir_broken_symlink_ok_false [(["s"], Node.symlink ["missing"]), (["f"], Node.file 0)]
    ["s"] ["missing"] (by decide) (by decide) (by decide)

/-- C9: for a symbolic link entry, `is_dir` follows the link: when the
stored target is a directory entry the result is `Ok true` (already via
`p.is_dir()`), and when the stored target is a regular-file entry the
result is `Ok false` (the readlink-and-reclassify step inspects the
target and finds a file). -/
theorem is_dir_symlink_target (fs : FS) (p t : Path)
    (hl : lookupFS fs p = some (Node.symlink t)) :
    (lookupFS fs t = some Node.dir → is_dir p fs = Except.ok true) ∧
    (∀ c, lookupFS fs t = some (Node.file c) → is_dir p fs = Except.ok false) := by
  constructor
  · intro ht
    have hsp : stat fs p = some Node.dir := stat_symlink_dir hl ht
    have hdp : isDirStat fs p = true := by rw [isDirStat, hsp]
    simp [is_dir, hdp]
  · intro c ht
    have hsp : stat fs p = some (Node.file c) := stat_symlink_file hl ht
    have hdp : isDirStat fs p = false := by rw [isDirStat, hsp]
    have hsym : isSymlinkRaw fs p = true := by rw [isSymlinkRaw]; simp only [hl]
    have hrl : read_link fs p = Except.ok t := by rw [read_link]; simp only [hl]
    have hdt : isDirStat fs t = false := by rw [isDirStat, stat_of_lookup_file ht]
    simp [is_dir, hdp, hsym, hrl, hdt]

/-- C9 witness: a symlink to directory `d` classifies as a directory, and
a symlink to regular file `f` does not. -/
theorem is_dir_symlink_target_witness :
    is_dir ["sd"] [(["d"], Node.dir), (["sd"], Node.symlink ["d"])] = Except.ok true ∧
    is_dir ["sf"] [(["f"], Node.file 0), (["sf"], Node.symlink ["f"])] = Except.ok false :=
  ⟨(is_dir_symlink_target [(["d"], Node.dir), (["sd"], Node.symlink ["d"])]
      ["sd"] ["d"] (by decide)).1 (by decide),
   (is_dir_symlink_target [(["f"], Node.file 0), (["sf"], Node.symlink ["f"])]
      ["sf"] ["f"] (by decide)).2 0 (by decide)⟩

/-- C8: `rm`'s type check sends every symlink entry (whatever it points
at, a directory included) to `rmf`, which unlinks the link itself: the
call succeeds, the entry at the link's path is gone, and every other
path — the link's target in particular — is untouched. A path that is
neither a symlink nor a regular file is sent to directory removal
(`rmdir`). -/
theorem rm_dispatch (fs : FS) (p : Path) :
    (∀ t, p ≠ [] → lookupFS fs p = some (Node.symlink t) →
      rm p fs = rmf p fs ∧ (rm p fs).2 = Except.ok () ∧
      lookupFS (rm p fs).1 p = none ∧
      ∀ q, q ≠ p → lookupFS (rm p fs).1 q = lookupFS fs q) ∧
    (isSymlinkRaw fs p = false → isFileStat fs p = false → rm p fs = rmdir p fs) := by
  constructor
  · intro t hp hl
    have hsym : isSymlinkRaw fs p = true := by rw [isSymlinkRaw]; simp only [hl]
    have hrm : rm p fs = rmf p fs := by rw [rm, hsym]; simp
    have hrf : remove_file p fs = (removeKey fs p, Except.ok ()) := by
      rw [remove_file, if_neg hp]; simp only [hl]
    have hrmf : rmf p fs = (removeKey fs p, Except.ok ()) := by
      rw [rmf, hrf]; rfl
    refine ⟨hrm, ?_, ?_, ?_⟩
    · rw [hrm, hrmf]
    · rw [hrm, hrmf]
      exact lookupFS_removeKey_self fs p
    · intro q hq
      rw [hrm, hrmf]
      exact lookupFS_removeKey_ne hq fs
  · intro h1 h2
    rw [rm, h1, h2]
    simp

/-- C8 witness: removing symlink `s -> d` deletes only the link — target
directory `d` and its content survive — and on a plain directory the
dispatch goes to `rmdir`. -/
theorem rm_dispatch_witness :
    rm ["s"] [(["d"], Node.dir), (["d", "f"], Node.file 0), (["s"], Node.symlink ["d"])]
      = rmf ["s"] [(["d"], Node.dir), (["d", "f"], Node.file 0), (["s"], Node.symlink ["d"])] ∧
    lookupFS (rm ["s"]
      [(["d"], Node.dir), (["d", "f"], Node.file 0), (["s"], Node.symlink ["d"])]).1 ["s"]
      = none ∧
    lookupFS (rm ["s"]
      [(["d"], Node.dir), (["d", "f"], Node.file 0), (["s"], Node.symlink ["d"])]).1 ["d"]
      = some Node.dir ∧
    rm ["e"] [(["e"], Node.dir)] = rmdir ["e"] [(["e"], Node.dir)] := by
  have hs := (rm_dispatch
    [(["d"], Node.dir), (["d", "f"], Node.file 0), (["s"], Node.symlink ["d"])] ["s"]).1
    ["d"] (by decide) (by decide)
  have hd := (rm_dispatch [(["e"], Node.dir)] ["e"]).2 (by decide) (by decide)
  exact ⟨hs.1, hs.2.2.1, (hs.2.2.2 ["d"] (by decide)).trans (by decide), hd⟩

/-- C7: `mkf_p` composes the two steps exactly as claimed. (i) When the
parent already exists the parent-creation step is skipped entirely and
only the tolerant file creation runs. (ii) When the parent is missing,
`mkdir_p` runs on the parent first and, on its success, the tolerant file
creation runs on the resulting state. (iii) When `mkdir_p` on the parent
fails, its error propagates unchanged as the result of `mkf_p` and the
entry at the file's path is untouched — the file is not created. -/
theorem mkf_p_structure (fs : FS) (p par : Path) (hpp : parentPath p = some par) :
    (pathExists fs par = true →
      mkf_p p fs = ((create_new p fs).1,
        iopermit (create_new p fs).2 [IOErrorKind.AlreadyExists])) ∧
    (pathExists fs par = false → (mkdir_p par fs).2 = Except.ok () →
      mkf_p p fs = ((create_new p (mkdir_p par fs).1).1,
        iopermit (create_new p (mkdir_p par fs).1).2 [IOErrorKind.AlreadyExists])) ∧
    (∀ e, pathExists fs par = false → (mkdir_p par fs).2 = Except.error e →
      (mkf_p p fs).2 = Except.error e ∧ lookupFS (mkf_p p fs).1 p = lookupFS fs p) := by
  refine ⟨?_, ?_, ?_⟩
  · intro hex
    rw [mkf_p]; simp only [hpp]; rw [if_pos hex]
  · intro hex hok
    have hnex : ¬ (pathExists fs par = true) := by rw [hex]; exact Bool.false_ne_true
    rcases hm : mkdir_p par fs with ⟨fs1, r1⟩
    rw [hm] at hok
    have hr1 : r1 = Except.ok () := hok
    subst hr1
    rw [mkf_p]; simp only [hpp]; rw [if_neg hnex]
    simp only [hm]
  · intro e hex herr
    have hnex : ¬ (pathExists fs par = true) := by rw [hex]; exact Bool.false_ne_true
    rcases hm : mkdir_p par fs with ⟨fs1, r1⟩
    rw [hm] at herr
    have hr1 : r1 = Except.error e := herr
    subst hr1
    have hfst : mkf_p p fs = (fs1, Except.error e) := by
      rw [mkf_p]; simp only [hpp]; rw [if_neg hnex]; simp only [hm]
    have hpne : p ≠ [] := (parentPath_eq_some hpp).1
    have hpar : par = p.dropLast := (parentPath_eq_some hpp).2
    have hnotin : p ∉ List.inits par := by
      intro hmem
      have hlen := ((List.mem_inits p par).mp hmem).length_le
      have hpos : 0 < p.length := List.length_pos.mpr hpne
      rw [hpar, List.length_dropLast] at hlen
      omega
    have hout : lookupFS (mkChain par (List.inits par) fs).1 p = lookupFS fs p :=
      mkChain_lookup_outside hnotin
    have hfs1 : (mkChain par (List.inits par) fs).1 = fs1 := congrArg Prod.fst hm
    constructor
    · rw [hfst]
    · rw [hfst, ← hfs1]
      exact hout

/-- C7 witness: (i) with parent `a` present only the file step runs
(creating `a/f`); (ii) on an empty state `mkf_p b/f` first creates `b`
then `b/f`; (iii) with a regular file at `c`, `mkdir_p c/d` fails with
`NotADirectory`, `mkf_p c/d/f` propagates exactly that error and creates
no file. -/
theorem mkf_p_structure_witness :
    mkf_p ["a", "f"] [(["a"], Node.dir)]
      = ([(["a", "f"], Node.file 0), (["a"], Node.dir)], Except.ok ()) ∧
    mkf_p ["b", "f"] ([] : FS)
      = ([(["b", "f"], Node.file 0), (["b"], Node.dir)], Except.ok ()) ∧
    (mkf_p ["c", "d", "f"] [(["c"], Node.file 9)]).2
      = Except.error ⟨IOErrorKind.NotADirectory, 0⟩ ∧
    lookupFS (mkf_p ["c", "d", "f"] [(["c"], Node.file 9)]).1 ["c", "d", "f"] = none := by
  have h1 := (mkf_p_structure [(["a"], Node.dir)] ["a", "f"] ["a"] (by decide)).1 (by decide)
  have h2 := (mkf_p_structure ([] : FS) ["b", "f"] ["b"] (by decide)).2.1
    (by decide) (by decide)
  have h3 := (mkf_p_structure [(["c"], Node.file 9)] ["c", "d", "f"] ["c", "d"]
    (by decide)).2.2 ⟨IOErrorKind.NotADirectory, 0⟩ (by decide) (by decide)
  exact ⟨h1.trans (by decide), h2.trans (by decide), h3.1, h3.2.trans (by decide)⟩

/-- C4 counterexample: the claim quantifies over every path, but `mkdir`
on `a/b` over the empty state fails with `NotFound` (the parent `a` does
not exist), so the two calls do not both succeed. -/
theorem create_twice_claim_false :
    (mkdir ["a", "b"] ([] : FS)).2 = Except.error ⟨IOErrorKind.NotFound, 0⟩ := by
  decide

/-- C4 (amended): for every path on which the first call succeeds, a
second call of the same creation operation (`mkdir`, `mkf`, `mkdir_p` or
`mkf_p`) also succeeds and returns the state after the first call
entirely unchanged — in particular, since a regular file's content is
part of the state, the second `mkf`/`mkf_p` call does not truncate or
recreate the existing file. -/
theorem create_ops_idempotent (fs : FS) (p : Path) :
    ((mkdir p fs).2 = Except.ok () →
      mkdir p (mkdir p fs).1 = ((mkdir p fs).1, Except.ok ())) ∧
    ((mkf p fs).2 = Except.ok () →
      mkf p (mkf p fs).1 = ((mkf p fs).1, Except.ok ())) ∧
    ((mkdir_p p fs).2 = Except.ok () →
      mkdir_p p (mkdir_p p fs).1 = ((mkdir_p p fs).1, Except.ok ())) ∧
    ((mkf_p p fs).2 = Except.ok () →
      mkf_p p (mkf_p p fs).1 = ((mkf_p p fs).1, Except.ok ())) :=
  ⟨fun h => mkdir_idem h, fun h => mkf_idem h, fun h => mkdir_p_idem h,
   fun h => mkf_p_idem h⟩

/-- C4 witness: the four creation operations, run twice from the empty
state on paths where the first call succeeds. -/
theorem create_ops_idempotent_witness :
    mkdir ["a"] (mkdir ["a"] ([] : FS)).1 = ((mkdir ["a"] ([] : FS)).1, Except.ok ()) ∧
    mkf ["f"] (mkf ["f"] ([] : FS)).1 = ((mkf ["f"] ([] : FS)).1, Except.ok ()) ∧
    mkdir_p ["a", "b"] (mkdir_p ["a", "b"] ([] : FS)).1
      = ((mkdir_p ["a", "b"] ([] : FS)).1, Except.ok ()) ∧
    mkf_p ["a", "b", "f"] (mkf_p ["a", "b", "f"] ([] : FS)).1
      = ((mkf_p ["a", "b", "f"] ([] : FS)).1, Except.ok ()) :=
  ⟨(create_ops_idempotent ([] : FS) ["a"]).1 (by decide),
   (create_ops_idempotent ([] : FS) ["f"]).2.1 (by decide),
   (create_ops_idempotent ([] : FS) ["a", "b"]).2.2.1 (by decide),
   (create_ops_idempotent ([] : FS) ["a", "b", "f"]).2.2.2 (by decide)⟩

end Fshelpers
